import Mathlib

set_option autoImplicit false

/-!
Shallow embedding of the tile-map game (src/src/main.rs, src/src/player/mod.rs).

Conventions used throughout this development:
* Rust `usize` values are modelled as `Nat`; the cast `as i32` is modelled by
  `usizeToI32`, which truncates to the low 32 bits and reinterprets them as a
  signed value, exactly as the Rust cast does on 32- and 64-bit targets.
* Rust `i32` arithmetic that can wrap is passed through `wrap32`.
* Rust `%` and `/` on `i32` truncate toward zero, so they are modelled by
  `Int.tmod` and `Int.tdiv`.
* `f32` quantities (world positions, time deltas, projection scales) are
  modelled as exact rationals `ℚ`; the float literals `0.1`, `10.`, `16.`,
  `0.9` become the rationals `1/10`, `10`, `16`, `9/10`.
-/

/-- Grid coordinate type. Modelled from the spec: the `vectors` module with
`Vector3Int` is declared (`mod vectors` in main.rs) but its source file is not
present; the spec describes it as three signed integers with component-wise
addition, equality and hashing, and with the cardinal unit vectors
UP = (0,+1,0), DOWN = (0,-1,0), LEFT = (-1,0,0), RIGHT = (+1,0,0). -/
structure Vector3Int where
  x : Int
  y : Int
  z : Int
deriving DecidableEq, Repr

def Vector3Int.new (x y z : Int) : Vector3Int := ⟨x, y, z⟩

instance : Add Vector3Int where
  add a b := ⟨a.x + b.x, a.y + b.y, a.z + b.z⟩

def Vector3Int.UP : Vector3Int := ⟨0, 1, 0⟩

def Vector3Int.DOWN : Vector3Int := ⟨0, -1, 0⟩

def Vector3Int.LEFT : Vector3Int := ⟨-1, 0, 0⟩

def Vector3Int.RIGHT : Vector3Int := ⟨1, 0, 0⟩

/-- Rust cast `usize as i32`: keep the low 32 bits, reinterpret as signed. -/
def usizeToI32 (n : Nat) : Int :=
  if n % 2 ^ 32 < 2 ^ 31 then ((n % 2 ^ 32 : Nat) : Int)
  else ((n % 2 ^ 32 : Nat) : Int) - 2 ^ 32

/-- Wrapping of an integer into the `i32` range, modelling release-mode
two-complement wraparound of `i32` arithmetic. -/
def wrap32 (i : Int) : Int :=
  (i + 2 ^ 31) % 2 ^ 32 - 2 ^ 31

/-- X coordinate of a cell: `(pos as i32 % 32) - 16` (main.rs line 140).
The subtraction cannot leave the `i32` range since the remainder lies in
(-32, 32). -/
def cellX (pos : Nat) : Int :=
  (usizeToI32 pos).tmod 32 - 16

/-- Y coordinate of a cell: `16 - (pos as i32) / 32` (main.rs line 141).
The subtraction cannot leave the `i32` range. -/
def cellY (pos : Nat) : Int :=
  16 - (usizeToI32 pos).tdiv 32

/-- One spawned tile: its `Position` component value and its `Tile` sprite
index (`Tile { i }`). -/
structure TilePlacement where
  v : Vector3Int
  i : Nat
deriving DecidableEq, Repr

/-- Decoding of a single cell of a layer, from the body of the inner loop of
`load_scene` (main.rs lines 132-149): `index = (i as i32) - 1`; when
`index >= 0` a tile is spawned at `(cellX pos, cellY pos, z)` carrying sprite
index `index as usize`, otherwise the cell is skipped. -/
def decodeCell (z : Int) (pos : Nat) (raw : Nat) : Option TilePlacement :=
  let index : Int := wrap32 (usizeToI32 raw - 1)
  if 0 ≤ index then
    some ⟨Vector3Int.new (cellX pos) (cellY pos) z, index.toNat⟩
  else
    none

/-- Decoding of one layer starting at flat position `pos`, following the
`layer.iter().enumerate()` loop of `load_scene`. -/
def decodeLayerAux (z : Int) : Nat → List Nat → List TilePlacement
  | _, [] => []
  | pos, raw :: rest =>
    match decodeCell z pos raw with
    | some t => t :: decodeLayerAux z (pos + 1) rest
    | none => decodeLayerAux z (pos + 1) rest

/-- Scene decoding from `load_scene` (main.rs lines 123-152): `z` is
initialised to `0` before the layer loop and is never modified inside it, so
every layer is decoded with the same `z = 0`. -/
def load_scene (layers : List (List Nat)) : List TilePlacement :=
  (layers.map (decodeLayerAux 0 0)).flatten

/-- Board mapping from `CurrentBoard` (main.rs lines 28-31): a `HashMap`
from `Vector3Int` to the spawned entity, modelled as an association list with
at most one entry per key; entities are modelled as the `Nat` spawn order. -/
def boardInsert (m : List (Vector3Int × Nat)) (k : Vector3Int) (e : Nat) :
    List (Vector3Int × Nat) :=
  (k, e) :: m.filter (fun p => ¬ p.1 = k)

/-- Lookup in the board map (`HashMap::get`). -/
def boardLookup (m : List (Vector3Int × Nat)) (k : Vector3Int) : Option Nat :=
  (m.find? (fun p => p.1 = k)).map (fun p => p.2)

/-- Board produced by `load_scene`: each spawned tile is inserted into
`current.tiles` keyed by its position (main.rs line 147), with fresh entity
ids issued in spawn order. -/
def load_scene_board (layers : List (List Nat)) : List (Vector3Int × Nat) :=
  let ps := load_scene layers
  (ps.zip (List.range ps.length)).foldl
    (fun b pe => boardInsert b pe.1.v pe.2) []

/-- Continuous world-space vector, modelling `bevy::Vec3` with exact
rationals in place of `f32`. -/
structure Vec3 where
  x : ℚ
  y : ℚ
  z : ℚ
deriving DecidableEq, Repr

/-- Unclamped linear interpolation `a.lerp(b, s) = a + (b - a) * s`,
exactly the glam `Vec3::lerp` used by the player movement system. -/
def Vec3.lerp (a b : Vec3) (s : ℚ) : Vec3 :=
  ⟨a.x + (b.x - a.x) * s, a.y + (b.y - a.y) * s, a.z + (b.z - a.z) * s⟩

/-- Squared euclidean distance. The source compares the distance
`(target - translation).length()` against the tolerance; since both sides are
nonnegative this is equivalent to comparing the squares, which keeps the model
inside ℚ (no square root). -/
def Vec3.distSq (a b : Vec3) : ℚ :=
  (a.x - b.x) ^ 2 + (a.y - b.y) ^ 2 + (a.z - b.z) ^ 2

/-- Componentwise difference `a - b`. -/
def Vec3.sub (a b : Vec3) : Vec3 :=
  ⟨a.x - b.x, a.y - b.y, a.z - b.z⟩

/-- Dot product, used to express on which side of the target the entity
ends up (overshoot detection). -/
def Vec3.dot (a b : Vec3) : ℚ :=
  a.x * b.x + a.y * b.y + a.z * b.z

def TILE_SIZE : ℚ := 16

def POSITION_TOLERANCE : ℚ := 1 / 10

def PLAYER_SPEED : ℚ := 10

/-- World position of a grid coordinate (main.rs `get_world_position`):
`(TILE_SIZE * x, TILE_SIZE * y, z)`. -/
def get_world_position (v : Vector3Int) : Vec3 :=
  ⟨TILE_SIZE * (v.x : ℚ), TILE_SIZE * (v.y : ℚ), (v.z : ℚ)⟩

/-- One tick of `update_player_position` (player/mod.rs lines 69-83) acting
on the player translation: with `target = get_world_position v` and
`d = |target - translation|`, if `d > POSITION_TOLERANCE` the translation is
lerped toward the target with factor `PLAYER_SPEED * dt`, otherwise it is set
to the target exactly. The comparison is expressed on squared distances. -/
def update_player_position (v : Vector3Int) (translation : Vec3) (dt : ℚ) :
    Vec3 :=
  let target := get_world_position v
  if Vec3.distSq target translation > POSITION_TOLERANCE ^ 2 then
    translation.lerp target (PLAYER_SPEED * dt)
  else
    target

/-- Keyboard keys consulted by the movement input system. -/
inductive KeyCode where
  | W
  | S
  | A
  | D
deriving DecidableEq, Repr

/-- Key-to-direction table (player/mod.rs lines 13-18). The direction
constants come from the missing `vectors` module, modelled from the spec. -/
def DIR_KEY_MAPPING : List (KeyCode × Vector3Int) :=
  [(KeyCode.W, Vector3Int.UP), (KeyCode.S, Vector3Int.DOWN),
   (KeyCode.A, Vector3Int.LEFT), (KeyCode.D, Vector3Int.RIGHT)]

/-- Body of the `player_position` system for one player: for each mapping
entry whose key was just pressed this frame, add its direction to the
discrete position (player/mod.rs lines 63-67). -/
def player_position_step (pressed : KeyCode → Bool) (v : Vector3Int) :
    Vector3Int :=
  DIR_KEY_MAPPING.foldl (fun acc kd => if pressed kd.1 then acc + kd.2 else acc) v

/-- Result of `Query::get_single` / `get_single_mut`: `some` exactly when the
query matches exactly one entity. -/
def getSingle {α : Type} : List α → Option α
  | [a] => some a
  | _ => none

/-- The `player_position` system over the list of entities matching the
player query: `get_single_mut` with a let-else early return, so with zero or
several players the world is left unchanged (player/mod.rs lines 59-67). -/
def player_position (pressed : KeyCode → Bool) (players : List Vector3Int) :
    List Vector3Int :=
  match getSingle players with
  | some v => [player_position_step pressed v]
  | none => players

/-- The `camera_follow_player` system (player/mod.rs lines 85-93): both the
camera and the player query use graceful `get_single` variants with let-else
early returns; when both are singletons the camera translation is set equal
to the player translation. -/
def camera_follow_player (cams : List Vec3) (players : List Vec3) :
    List Vec3 :=
  match getSingle cams, getSingle players with
  | some _, some p => [p]
  | _, _ => cams

/-- Rust `f32::clamp(lo, hi)` on the rational model. -/
def rustClamp (x lo hi : ℚ) : ℚ :=
  if x < lo then lo else if x > hi then hi else x

/-- Scale update of one `zoom_2d` frame (main.rs lines 188-199):
`scale *= 0.9` then `scale = scale.clamp(0.5, 5.0)`. -/
def zoom_step (s : ℚ) : ℚ :=
  rustClamp (s * (9 / 10)) (1 / 2) 5

/-- The `zoom_2d` system over the list of camera projections it queries.
It calls `q.single_mut()`, which panics unless the query matches exactly one
entity; the panic is modelled as `none`. -/
def zoom_2d (cams : List ℚ) : Option (List ℚ) :=
  match getSingle cams with
  | some s => some [zoom_step s]
  | none => none

inductive AppState where
  | Loading
  | Game
deriving DecidableEq, Repr

/-- Per-asset load state reported by the external asset server. -/
inductive LoadState where
  | notLoaded
  | loading
  | loaded
  | failed
deriving DecidableEq, Repr

/-- Modelled from the engine collaborator interface: the aggregate group
load state of `AssetServer::get_group_load_state` — `Failed` as soon as any
tracked asset failed, `Loaded` exactly when every tracked asset is loaded,
and a pending state otherwise. -/
def get_group_load_state (assets : List LoadState) : LoadState :=
  if assets.any (fun a => decide (a = LoadState.failed)) then LoadState.failed
  else if assets.all (fun a => decide (a = LoadState.loaded)) then
    LoadState.loaded
  else LoadState.loading

/-- One frame of the asset gate. `check_asset_loading` (main.rs lines
98-113) runs only in `OnUpdate(AppState::Loading)`, so in `Game` nothing
runs; in `Loading` it sets the next state to `Game` exactly when the group
load state is `Loaded` (on `Failed` it only logs and stays). -/
def check_asset_loading (assets : List LoadState) (s : AppState) : AppState :=
  match s with
  | AppState.Game => AppState.Game
  | AppState.Loading =>
    if get_group_load_state assets = LoadState.loaded then AppState.Game
    else AppState.Loading

/-- Run of the asset gate over a sequence of frames, each frame observing
the per-asset load states of that frame. -/
def runGate (frames : List (List LoadState)) (s : AppState) : AppState :=
  frames.foldl (fun t f => check_asset_loading f t) s

/-- Number of Loading-to-Game switches performed by the gate along a run
starting in state `s`. -/
def gateTransitionCountFrom (s : AppState) : List (List LoadState) → Nat
  | [] => 0
  | f :: fs =>
    (if s = AppState.Loading ∧ check_asset_loading f s = AppState.Game
      then 1 else 0) +
      gateTransitionCountFrom (check_asset_loading f s) fs

/-- Number of Loading-to-Game switches along a run from the initial
`Loading` state. -/
def gateTransitionCount (frames : List (List LoadState)) : Nat :=
  gateTransitionCountFrom AppState.Loading frames

/-- World fragment relevant to the movement / camera ordering question:
the player discrete position and translation, and the camera translation. -/
structure PlayerCameraWorld where
  playerV : Vector3Int
  playerT : Vec3
  camT : Vec3
deriving DecidableEq, Repr

/-- Effect of the `update_player_position` system on the world. -/
def movementSystemStep (dt : ℚ) (w : PlayerCameraWorld) : PlayerCameraWorld :=
  { w with playerT := update_player_position w.playerV w.playerT dt }

/-- Effect of the `camera_follow_player` system on the world. -/
def cameraSystemStep (w : PlayerCameraWorld) : PlayerCameraWorld :=
  { w with camT := w.playerT }

/-- One frame in which the scheduler happens to run `camera_follow_player`
before `update_player_position`. `PlayerPlugin::build` (player/mod.rs lines
21-29) registers both with plain `add_system` and no ordering constraint, so
the engine scheduler may pick either order on any frame. -/
def frameCameraFirst (dt : ℚ) (w : PlayerCameraWorld) : PlayerCameraWorld :=
  movementSystemStep dt (cameraSystemStep w)

/-- One frame in which the scheduler runs `update_player_position` before
`camera_follow_player`. -/
def frameMovementFirst (dt : ℚ) (w : PlayerCameraWorld) : PlayerCameraWorld :=
  cameraSystemStep (movementSystemStep dt w)

/-! ### Helper lemmas -/

theorem Vector3Int.add_def (a b : Vector3Int) :
    a + b = ⟨a.x + b.x, a.y + b.y, a.z + b.z⟩ := rfl

theorem usizeToI32_of_lt {n : Nat} (h : n < 2 ^ 31) : usizeToI32 n = n := by
  have h32 : n % 2 ^ 32 = n := Nat.mod_eq_of_lt (by omega)
  unfold usizeToI32
  rw [h32, if_pos h]

theorem wrap32_of_bounds {i : Int} (h1 : -(2 ^ 31) ≤ i) (h2 : i < 2 ^ 31) :
    wrap32 i = i := by
  unfold wrap32
  omega

theorem decodeCell_zero (z : Int) (pos : Nat) : decodeCell z pos 0 = none := by
  have hw : wrap32 (usizeToI32 0 - 1) = -1 := by decide
  simp [decodeCell, hw]

theorem decodeCell_of_pos {raw : Nat} (h1 : 1 ≤ raw) (h2 : raw < 2 ^ 31)
    (z : Int) (pos : Nat) :
    decodeCell z pos raw =
      some ⟨Vector3Int.new (cellX pos) (cellY pos) z, raw - 1⟩ := by
  have hu : usizeToI32 raw = raw := usizeToI32_of_lt h2
  have hw : wrap32 (usizeToI32 raw - 1) = (raw : Int) - 1 := by
    rw [hu]
    exact wrap32_of_bounds (by omega) (by omega)
  have hnn : (0 : Int) ≤ (raw : Int) - 1 := by omega
  have ht : ((raw : Int) - 1).toNat = raw - 1 := by omega
  simp [decodeCell, hw, hnn, ht]

theorem decodeLayerAux_sprites (z : Int) (layer : List Nat) :
    ∀ start : Nat, (∀ r ∈ layer, r < 2 ^ 31) →
      (decodeLayerAux z start layer).map (fun t => t.i) =
        (layer.filter (fun r => decide (r ≠ 0))).map (fun r => r - 1) := by
  induction layer with
  | nil => intro start _; rfl
  | cons r rest ih =>
    intro start hb
    by_cases hr : r = 0
    · subst hr
      simp only [decodeLayerAux, decodeCell_zero, List.filter]
      simpa using ih (start + 1) (fun a ha => hb a (List.mem_cons_of_mem _ ha))
    · have h1 : 1 ≤ r := Nat.one_le_iff_ne_zero.mpr hr
      have h2 : r < 2 ^ 31 := hb r (List.mem_cons_self _ _)
      simp only [decodeLayerAux, decodeCell_of_pos h1 h2, List.filter, hr,
        decide_not, List.map]
      simpa [hr] using ih (start + 1) (fun a ha => hb a (List.mem_cons_of_mem _ ha))

/-! ### Claim C1 -/

/-- Claim C1 (code bug): the spec says layer index ℓ is used as the z
coordinate so that placements from distinct layers coexist in the board under
distinct keys. The source even comments `increasing the z-index as we do`,
but `z` is initialised to 0 and never incremented, so with the two-layer
scene `[[1], [1]]` both placements get `z = 0` (not 0 and 1) and the second
layer overwrites the first in `CurrentBoard.tiles`, leaving one entry keyed
`(-16, 16, 0)` holding the later entity. -/
theorem c1_layer_z_never_incremented :
    (load_scene [[1], [1]]).map (fun t => t.v.z) = [0, 0] ∧
    load_scene [[1], [1]] =
      [⟨Vector3Int.new (-16) 16 0, 0⟩, ⟨Vector3Int.new (-16) 16 0, 0⟩] ∧
    load_scene_board [[1], [1]] = [(Vector3Int.new (-16) 16 0, 1)] ∧
    boardLookup (load_scene_board [[1], [1]]) (Vector3Int.new (-16) 16 0) =
      some 1 := by
  decide

/-! ### Claim C2 -/

/-- Claim C2 (counterexample): the cell with raw value 2^31 + 1 has raw
value at least 1, yet decoding produces no placement for it, because the Rust
cast `as i32` turns it into a negative number and the `index >= 0` guard
rejects it. -/
theorem c2_large_raw_counterexample :
    1 ≤ 2 ^ 31 + 1 ∧
    decodeCell 0 0 (2 ^ 31 + 1) = none ∧
    load_scene [[2 ^ 31 + 1]] = [] := by
  refine ⟨by norm_num, ?_, ?_⟩ <;> decide

/-- Claim C2 (amended): decoding produces no placement for a cell with raw
value 0, and for a cell whose raw value r satisfies 1 ≤ r < 2^31 it produces
exactly one placement whose sprite index is r - 1; over a whole layer of such
values, the produced sprite indices are exactly the nonzero raw values
shifted down by one, in raster order. -/
theorem c2_decode_skip_and_offset (z : Int) (pos start : Nat) (raw : Nat)
    (layer : List Nat) :
    (raw = 0 → decodeCell z pos raw = none) ∧
    (1 ≤ raw → raw < 2 ^ 31 →
      decodeCell z pos raw =
        some ⟨Vector3Int.new (cellX pos) (cellY pos) z, raw - 1⟩) ∧
    ((∀ r ∈ layer, r < 2 ^ 31) →
      (decodeLayerAux z start layer).map (fun t => t.i) =
        (layer.filter (fun r => decide (r ≠ 0))).map (fun r => r - 1)) := by
  refine ⟨?_, ?_, ?_⟩
  · rintro rfl
    exact decodeCell_zero z pos
  · intro h1 h2
    exact decodeCell_of_pos h1 h2 z pos
  · exact decodeLayerAux_sprites z layer start

/-- Witness for the amended claim C2: on the layer `[0, 1, 5]` the decoder
skips the 0 cell and produces sprite indices `[0, 4]`. -/
theorem c2_decode_skip_and_offset_witness :
    decodeCell 0 0 0 = none ∧
    decodeCell 0 1 1 =
      some ⟨Vector3Int.new (cellX 1) (cellY 1) 0, 0⟩ ∧
    (decodeLayerAux 0 0 [0, 1, 5]).map (fun t => t.i) =
      ([0, 1, 5].filter (fun r => decide (r ≠ 0))).map (fun r => r - 1) :=
  ⟨(c2_decode_skip_and_offset 0 0 0 0 []).1 rfl,
   (c2_decode_skip_and_offset 0 1 0 1 []).2.1 (by norm_num) (by norm_num),
   (c2_decode_skip_and_offset 0 0 0 0 [0, 1, 5]).2.2 (by decide)⟩

/-! ### Claim C7 -/

/-- Claim C7: inserting into the board and looking up the same position
returns the inserted identifier, and a second insert at the same position
overwrites the first (last write wins, no duplicate error). -/
theorem c7_board_insert_lookup (m : List (Vector3Int × Nat)) (k : Vector3Int)
    (e1 e2 : Nat) :
    boardLookup (boardInsert m k e1) k = some e1 ∧
    boardLookup (boardInsert (boardInsert m k e1) k e2) k = some e2 := by
  constructor <;> simp [boardLookup, boardInsert, List.find?]

/-! ### Claim C3 -/

/-- Claim C3: for width 32, each flat row-major position p (within the i32
range; a scene layer holds 32 x 32 = 1024 cells, so every position of a real
layer qualifies) decodes to x = (p mod 32) - 16 and y = 16 - (p div 32); in
particular positions 0, 31, 32 and 1023 decode to (-16, 16), (15, 16),
(-16, 15) and (15, -15). -/
theorem c3_cell_coordinates :
    (∀ p : Nat, p < 2 ^ 31 →
      cellX p = ((p % 32 : Nat) : Int) - 16 ∧
      cellY p = 16 - ((p / 32 : Nat) : Int)) ∧
    (cellX 0 = -16 ∧ cellY 0 = 16) ∧
    (cellX 31 = 15 ∧ cellY 31 = 16) ∧
    (cellX 32 = -16 ∧ cellY 32 = 15) ∧
    (cellX 1023 = 15 ∧ cellY 1023 = -15) := by
  refine ⟨?_, by decide, by decide, by decide, by decide⟩
  intro p hp
  have hu : usizeToI32 p = p := usizeToI32_of_lt hp
  constructor
  · rw [cellX, hu, Int.tmod_eq_emod (Int.ofNat_nonneg p) (by norm_num)]
    push_cast
    ring
  · rw [cellY, hu, Int.tdiv_eq_ediv (Int.ofNat_nonneg p) (by norm_num)]
    push_cast
    ring

/-- Witness for claim C3 at the concrete position 37. -/
theorem c3_cell_coordinates_witness :
    cellX 37 = ((37 % 32 : Nat) : Int) - 16 ∧
    cellY 37 = 16 - ((37 / 32 : Nat) : Int) :=
  c3_cell_coordinates.1 37 (by norm_num)

/-! ### Claim C4 -/

theorem targetOne_eval :
    get_world_position (Vector3Int.new 1 0 0) = ⟨16, 0, 0⟩ := by
  norm_num [get_world_position, TILE_SIZE, Vector3Int.new, Vec3.mk.injEq]

theorem c4_update_eval :
    update_player_position (Vector3Int.new 1 0 0) ⟨0, 0, 0⟩ (1 / 4) =
      ⟨40, 0, 0⟩ := by
  simp only [update_player_position, targetOne_eval]
  norm_num [Vec3.distSq, POSITION_TOLERANCE, Vec3.lerp, PLAYER_SPEED,
    Vec3.mk.injEq]

/-- Claim C4 (counterexample): with the player one tile to the right of the
origin (target world position (16, 0, 0)), translation at the origin and
deltaTime = 1/4, the lerp factor is PLAYER_SPEED * (1/4) = 5/2, so one tick
moves the translation to (40, 0, 0): the distance to the target does not
decrease (it grows from 16 to 24) and the entity is moved past the target,
refuting the claim even though deltaTime > 0 and the distance exceeded the
tolerance. -/
theorem c4_overshoot_counterexample :
    (0 : ℚ) < 1 / 4 ∧
    Vec3.distSq (get_world_position (Vector3Int.new 1 0 0)) ⟨0, 0, 0⟩ >
      POSITION_TOLERANCE ^ 2 ∧
    update_player_position (Vector3Int.new 1 0 0) ⟨0, 0, 0⟩ (1 / 4) =
      ⟨40, 0, 0⟩ ∧
    ¬ Vec3.distSq
        (update_player_position (Vector3Int.new 1 0 0) ⟨0, 0, 0⟩ (1 / 4))
        (get_world_position (Vector3Int.new 1 0 0)) <
      Vec3.distSq ⟨0, 0, 0⟩ (get_world_position (Vector3Int.new 1 0 0)) ∧
    Vec3.dot
        (Vec3.sub
          (update_player_position (Vector3Int.new 1 0 0) ⟨0, 0, 0⟩ (1 / 4))
          (get_world_position (Vector3Int.new 1 0 0)))
        (Vec3.sub (get_world_position (Vector3Int.new 1 0 0)) ⟨0, 0, 0⟩) >
      0 := by
  refine ⟨by norm_num, ?_, c4_update_eval, ?_, ?_⟩
  · rw [targetOne_eval]
    norm_num [Vec3.distSq, POSITION_TOLERANCE]
  · rw [c4_update_eval, targetOne_eval]
    norm_num [Vec3.distSq]
  · rw [c4_update_eval, targetOne_eval]
    norm_num [Vec3.dot, Vec3.sub]

/-- Claim C4 (amended): for a tick with deltaTime > 0, if the squared
distance between target T and translation P is at most the squared tolerance
the tick sets the translation exactly to T; if it exceeds the squared
tolerance and additionally PLAYER_SPEED * deltaTime is at most 1 (that is,
deltaTime is at most 1/10 of a second), the tick strictly decreases the
squared distance to T and never moves the translation past T (the moved
point stays on the segment from P to T, expressed by a nonpositive dot
product). -/
theorem c4_movement_tick (v : Vector3Int) (p : Vec3) (dt : ℚ)
    (hdt : 0 < dt) :
    (Vec3.distSq (get_world_position v) p ≤ POSITION_TOLERANCE ^ 2 →
      update_player_position v p dt = get_world_position v) ∧
    (Vec3.distSq (get_world_position v) p > POSITION_TOLERANCE ^ 2 →
      PLAYER_SPEED * dt ≤ 1 →
      Vec3.distSq (update_player_position v p dt) (get_world_position v) <
        Vec3.distSq p (get_world_position v) ∧
      Vec3.dot
          (Vec3.sub (update_player_position v p dt) (get_world_position v))
          (Vec3.sub (get_world_position v) p) ≤ 0) := by
  set T := get_world_position v with hT
  constructor
  · intro hle
    rw [update_player_position]
    rw [if_neg (by rw [← hT]; exact not_lt.mpr hle)]
  · intro hgt hs
    rw [update_player_position, if_pos (by rw [← hT]; exact hgt)]
    set s : ℚ := PLAYER_SPEED * dt with hsdef
    have hs0 : 0 < s := by
      rw [hsdef, PLAYER_SPEED]
      positivity
    have hD0 : 0 < Vec3.distSq p T := by
      have := hgt
      rw [Vec3.distSq] at *
      nlinarith [sq_nonneg (T.x - p.x), sq_nonneg (T.y - p.y),
        sq_nonneg (T.z - p.z)]
    have hkey : Vec3.distSq (p.lerp T s) T = (1 - s) ^ 2 * Vec3.distSq p T := by
      rw [Vec3.lerp, Vec3.distSq, Vec3.distSq]
      ring
    constructor
    · rw [hkey]
      have hfac : (1 - s) ^ 2 < 1 := by nlinarith
      nlinarith
    · have hdot : Vec3.dot (Vec3.sub (p.lerp T s) T) (Vec3.sub T p) =
          (s - 1) * Vec3.distSq p T := by
        rw [Vec3.lerp, Vec3.sub, Vec3.sub, Vec3.dot, Vec3.distSq]
        ring
      rw [hdot]
      have hs1 : s - 1 ≤ 0 := by linarith
      exact mul_nonpos_of_nonpos_of_nonneg hs1 (le_of_lt hD0)

/-- Witness for the amended claim C4: target (16, 0, 0), translation at the
origin, deltaTime = 1/20 (lerp factor 1/2) strictly decreases the squared
distance. -/
theorem c4_movement_tick_witness :
    Vec3.distSq
        (update_player_position (Vector3Int.new 1 0 0) ⟨0, 0, 0⟩ (1 / 20))
        (get_world_position (Vector3Int.new 1 0 0)) <
      Vec3.distSq ⟨0, 0, 0⟩ (get_world_position (Vector3Int.new 1 0 0)) :=
  ((c4_movement_tick (Vector3Int.new 1 0 0) ⟨0, 0, 0⟩ (1 / 20)
      (by norm_num)).2
    (by rw [targetOne_eval]; norm_num [Vec3.distSq, POSITION_TOLERANCE])
    (by norm_num [PLAYER_SPEED])).1

/-! ### Claim C10 -/

/-- Claim C10: one zoom frame multiplies the projection scale by 9/10 and
clamps the result into the interval from 1/2 to 5, so after the first frame
the scale always lies in that closed interval, whatever the starting scale,
and every subsequent frame preserves the invariant. -/
theorem c10_zoom_scale_invariant :
    (∀ s : ℚ, zoom_step s = rustClamp (s * (9 / 10)) (1 / 2) 5) ∧
    (∀ s : ℚ, 1 / 2 ≤ zoom_step s ∧ zoom_step s ≤ 5) ∧
    (∀ s : ℚ, ∀ n : Nat,
      1 / 2 ≤ zoom_step^[n + 1] s ∧ zoom_step^[n + 1] s ≤ 5) := by
  have hstep : ∀ s : ℚ, 1 / 2 ≤ zoom_step s ∧ zoom_step s ≤ 5 := by
    intro s
    rw [zoom_step, rustClamp]
    split_ifs with h1 h2
    · norm_num
    · norm_num
    · constructor <;> linarith
  refine ⟨fun s => rfl, hstep, fun s n => ?_⟩
  rw [Function.iterate_succ_apply']
  exact hstep _

/-! ### Claim C5 -/

theorem get_group_loaded_iff (f : List LoadState) :
    get_group_load_state f = LoadState.loaded ↔
      ∀ a ∈ f, a = LoadState.loaded := by
  rw [get_group_load_state]
  split_ifs with hfail hall
  · rw [List.any_eq_true] at hfail
    obtain ⟨a, ha, hfa⟩ := hfail
    rw [decide_eq_true_eq] at hfa
    constructor
    · intro h
      simp at h
    · intro h
      have := h a ha
      rw [this] at hfa
      simp at hfa
  · constructor
    · intro _
      rw [List.all_eq_true] at hall
      intro a ha
      exact decide_eq_true_eq.mp (hall a ha)
    · intro _
      rfl
  · constructor
    · intro h
      simp at h
    · intro h
      exact absurd (List.all_eq_true.mpr
        (fun a ha => decide_eq_true_eq.mpr (h a ha))) hall

theorem get_group_of_failed {g : List LoadState}
    (h : LoadState.failed ∈ g) :
    get_group_load_state g = LoadState.failed := by
  rw [get_group_load_state]
  rw [if_pos (List.any_eq_true.mpr ⟨_, h, by simp⟩)]

theorem check_loading_of_failed {g : List LoadState}
    (h : LoadState.failed ∈ g) :
    check_asset_loading g AppState.Loading = AppState.Loading := by
  rw [check_asset_loading]
  rw [if_neg (by rw [get_group_of_failed h]; simp)]

theorem runGate_game (fs : List (List LoadState)) :
    runGate fs AppState.Game = AppState.Game := by
  induction fs with
  | nil => rfl
  | cons f fs ih => exact ih

theorem gateTransitionCountFrom_game (fs : List (List LoadState)) :
    gateTransitionCountFrom AppState.Game fs = 0 := by
  induction fs with
  | nil => rfl
  | cons f fs ih =>
    rw [gateTransitionCountFrom]
    simpa using ih

theorem gateTransitionCountFrom_le_one (fs : List (List LoadState)) :
    ∀ s, gateTransitionCountFrom s fs ≤ 1 := by
  induction fs with
  | nil => intro s; exact Nat.zero_le 1
  | cons f fs ih =>
    intro s
    rw [gateTransitionCountFrom]
    cases s with
    | Game =>
      have h1 : check_asset_loading f AppState.Game = AppState.Game := rfl
      simp [h1, gateTransitionCountFrom_game]
    | Loading =>
      cases h1 : check_asset_loading f AppState.Loading with
      | Loading => simpa [h1] using ih AppState.Loading
      | Game => simp [h1, gateTransitionCountFrom_game]

theorem gateTransitionCountFrom_eq_one (fs : List (List LoadState)) :
    runGate fs AppState.Loading = AppState.Game →
      gateTransitionCountFrom AppState.Loading fs = 1 := by
  induction fs with
  | nil => intro h; simp [runGate] at h
  | cons f fs ih =>
    intro h
    rw [gateTransitionCountFrom]
    cases h1 : check_asset_loading f AppState.Loading with
    | Loading =>
      have hrun : runGate fs AppState.Loading = AppState.Game := by
        have : runGate (f :: fs) AppState.Loading =
            runGate fs (check_asset_loading f AppState.Loading) := rfl
        rw [this, h1] at h
        exact h
      simpa [h1] using ih hrun
    | Game => simp [h1, gateTransitionCountFrom_game]

/-- Claim C5: the asset gate leaves Game unchanged (the polling system runs
only while Loading), switches from Loading to Game exactly when every tracked
asset simultaneously reports loaded, performs at most one switch on any run
(and exactly one on any run that reaches Game), stays in Game for ever after
reaching it, and if some asset reports failed on every frame the gate remains
in Loading for the whole run (fatal log, no retry). -/
theorem c5_asset_gate (f : List LoadState)
    (frames fs1 fs2 : List (List LoadState)) :
    check_asset_loading f AppState.Game = AppState.Game ∧
    (check_asset_loading f AppState.Loading = AppState.Game ↔
      ∀ a ∈ f, a = LoadState.loaded) ∧
    gateTransitionCount frames ≤ 1 ∧
    (runGate frames AppState.Loading = AppState.Game →
      gateTransitionCount frames = 1) ∧
    (runGate fs1 AppState.Loading = AppState.Game →
      runGate (fs1 ++ fs2) AppState.Loading = AppState.Game) ∧
    ((∀ g ∈ frames, LoadState.failed ∈ g) →
      runGate frames AppState.Loading = AppState.Loading) := by
  refine ⟨rfl, ?_, ?_, ?_, ?_, ?_⟩
  · rw [← get_group_loaded_iff]
    constructor
    · intro h
      by_contra hne
      rw [check_asset_loading, if_neg hne] at h
      simp at h
    · intro h
      rw [check_asset_loading, if_pos h]
  · exact gateTransitionCountFrom_le_one frames AppState.Loading
  · exact gateTransitionCountFrom_eq_one frames
  · intro h
    have happ : runGate (fs1 ++ fs2) AppState.Loading =
        runGate fs2 (runGate fs1 AppState.Loading) := by
      rw [runGate, runGate, runGate, List.foldl_append]
    rw [happ, h]
    exact runGate_game fs2
  · intro h
    induction frames with
    | nil => rfl
    | cons g gs ih =>
      have hg : LoadState.failed ∈ g := h g (List.mem_cons_self _ _)
      have hstep : runGate (g :: gs) AppState.Loading =
          runGate gs (check_asset_loading g AppState.Loading) := rfl
      rw [hstep, check_loading_of_failed hg]
      exact ih (fun a ha => h a (List.mem_cons_of_mem _ ha))

/-- Witness for claim C5: a run that loads both assets on its first frame
switches exactly once, and a run whose every frame contains a failed asset
ends still in Loading. -/
theorem c5_asset_gate_witness :
    gateTransitionCount
        [[LoadState.loaded, LoadState.loaded], [LoadState.failed]] = 1 ∧
    runGate [[LoadState.failed], [LoadState.failed]] AppState.Loading =
      AppState.Loading :=
  ⟨(c5_asset_gate [] [[LoadState.loaded, LoadState.loaded],
      [LoadState.failed]] [] []).2.2.2.1 (by decide),
   (c5_asset_gate [] [[LoadState.failed], [LoadState.failed]] [] []).2.2.2.2.2
     (by decide)⟩

/-! ### Claim C6 -/

/-- Claim C6 (code bug): the spec requires `camera_follow_player` to run
after `update_player_position` within a frame so the camera equals the player
translation of the same tick, but `PlayerPlugin::build` registers both with
plain `add_system` and no ordering constraint, so the engine scheduler may
run them in either order. When the movement system does run first the
equality holds for every world (first conjunct); when the scheduler picks
the other order, on the concrete world with the player heading to grid
(1, 0, 0) from the origin the camera ends the frame at the old translation
(0, 0, 0) while the player translation of that tick is (40, 0, 0) — a
one-tick lag, violating the claimed same-tick equality. -/
theorem c6_camera_follow_ordering :
    (∀ dt : ℚ, ∀ w : PlayerCameraWorld,
      (frameMovementFirst dt w).camT = (frameMovementFirst dt w).playerT) ∧
    (frameCameraFirst (1 / 4)
        ⟨Vector3Int.new 1 0 0, ⟨0, 0, 0⟩, ⟨7, 7, 7⟩⟩).camT = ⟨0, 0, 0⟩ ∧
    (frameCameraFirst (1 / 4)
        ⟨Vector3Int.new 1 0 0, ⟨0, 0, 0⟩, ⟨7, 7, 7⟩⟩).playerT = ⟨40, 0, 0⟩ ∧
    (frameCameraFirst (1 / 4)
        ⟨Vector3Int.new 1 0 0, ⟨0, 0, 0⟩, ⟨7, 7, 7⟩⟩).camT ≠
      (frameCameraFirst (1 / 4)
        ⟨Vector3Int.new 1 0 0, ⟨0, 0, 0⟩, ⟨7, 7, 7⟩⟩).playerT := by
  have hplayer : (frameCameraFirst (1 / 4)
      ⟨Vector3Int.new 1 0 0, ⟨0, 0, 0⟩, ⟨7, 7, 7⟩⟩).playerT = ⟨40, 0, 0⟩ := by
    show update_player_position (Vector3Int.new 1 0 0) ⟨0, 0, 0⟩ (1 / 4) =
      ⟨40, 0, 0⟩
    exact c4_update_eval
  refine ⟨fun dt w => rfl, rfl, hplayer, ?_⟩
  rw [hplayer]
  intro h
  have hx : (0 : ℚ) = 40 := congrArg Vec3.x h
  norm_num at hx

/-! ### Claim C8 -/

theorem getSingle_eq_none {α : Type} (l : List α) (h : l.length ≠ 1) :
    getSingle l = none := by
  match l with
  | [] => rfl
  | [a] => exact absurd rfl h
  | a :: b :: t => rfl

/-- Claim C8 (counterexample): with zero cameras the `zoom_2d` system does
not silently skip its work — it calls `Query::single_mut`, which panics, so
the process fails; the panic is modelled as `none`. -/
theorem c8_zoom_panics_counterexample : zoom_2d [] = none := rfl

/-- Claim C8 (amended): the singleton-query systems written with
`get_single` / `get_single_mut` and a let-else early return
(`player_position` and `camera_follow_player`, and likewise
`update_player_position` and `spawn_player_renderer`) silently perform no
work on a frame whose query does not match exactly one entity; `zoom_2d`,
however, uses `Query::single_mut` and panics (process failure) when the
camera query matches zero or several entities. -/
theorem c8_singleton_query_handling (pressed : KeyCode → Bool)
    (players : List Vector3Int) (cams pl : List Vec3) (scales : List ℚ) :
    (players.length ≠ 1 → player_position pressed players = players) ∧
    (cams.length ≠ 1 → camera_follow_player cams pl = cams) ∧
    (pl.length ≠ 1 → camera_follow_player cams pl = cams) ∧
    (scales.length ≠ 1 → zoom_2d scales = none) := by
  refine ⟨?_, ?_, ?_, ?_⟩
  · intro h
    rw [player_position, getSingle_eq_none players h]
  · intro h
    rw [camera_follow_player, getSingle_eq_none cams h]
  · intro h
    rw [camera_follow_player, getSingle_eq_none pl h]
    cases getSingle cams <;> rfl
  · intro h
    rw [zoom_2d, getSingle_eq_none scales h]

/-- Witness for the amended claim C8 at empty query results. -/
theorem c8_singleton_query_handling_witness :
    player_position (fun _ => false) [] = [] ∧
    camera_follow_player [] [⟨0, 0, 0⟩] = [] ∧
    zoom_2d [] = none :=
  ⟨(c8_singleton_query_handling (fun _ => false) [] [] [] []).1 (by decide),
   (c8_singleton_query_handling (fun _ => false) [] [] [⟨0, 0, 0⟩] []).2.1
     (by decide),
   (c8_singleton_query_handling (fun _ => false) [] [] [] []).2.2.2
     (by decide)⟩

/-! ### Claim C9 -/

theorem player_position_step_unfold (pressed : KeyCode → Bool)
    (v : Vector3Int) :
    player_position_step pressed v =
      ⟨v.x + (if pressed KeyCode.A then -1 else 0) +
          (if pressed KeyCode.D then 1 else 0),
        v.y + (if pressed KeyCode.W then 1 else 0) +
          (if pressed KeyCode.S then -1 else 0),
        v.z⟩ := by
  cases hW : pressed KeyCode.W <;> cases hS : pressed KeyCode.S <;>
    cases hA : pressed KeyCode.A <;> cases hD : pressed KeyCode.D <;>
    simp [player_position_step, DIR_KEY_MAPPING, hW, hS, hA, hD,
      Vector3Int.add_def, Vector3Int.UP, Vector3Int.DOWN, Vector3Int.LEFT,
      Vector3Int.RIGHT, Vector3Int.mk.injEq]

/-- Claim C9: each detected press of a cardinal key advances the discrete
target by one grid unit in that direction (W, S, A, D map to (0,1,0),
(0,-1,0), (-1,0,0), (1,0,0)); several simultaneous presses in one tick all
apply their deltas (the general unfolding over an arbitrary pressed-set),
and N consecutive frames each pressing only D advance the target by exactly
N units in +x. -/
theorem c9_direction_key_presses :
    (∀ v, player_position_step (fun k => decide (k = KeyCode.W)) v =
      v + Vector3Int.UP) ∧
    (∀ v, player_position_step (fun k => decide (k = KeyCode.S)) v =
      v + Vector3Int.DOWN) ∧
    (∀ v, player_position_step (fun k => decide (k = KeyCode.A)) v =
      v + Vector3Int.LEFT) ∧
    (∀ v, player_position_step (fun k => decide (k = KeyCode.D)) v =
      v + Vector3Int.RIGHT) ∧
    (∀ pressed v, player_position_step pressed v =
      ⟨v.x + (if pressed KeyCode.A then -1 else 0) +
          (if pressed KeyCode.D then 1 else 0),
        v.y + (if pressed KeyCode.W then 1 else 0) +
          (if pressed KeyCode.S then -1 else 0),
        v.z⟩) ∧
    (∀ v : Vector3Int, ∀ n : Nat,
      (player_position_step (fun k => decide (k = KeyCode.D)))^[n] v =
        ⟨v.x + n, v.y, v.z⟩) := by
  have hsingle : ∀ v, player_position_step
      (fun k => decide (k = KeyCode.D)) v = v + Vector3Int.RIGHT := by
    intro v
    rw [player_position_step_unfold]
    simp [Vector3Int.add_def, Vector3Int.RIGHT]
  refine ⟨?_, ?_, ?_, ?_, player_position_step_unfold, ?_⟩
  · intro v
    rw [player_position_step_unfold]
    simp [Vector3Int.add_def, Vector3Int.UP]
  · intro v
    rw [player_position_step_unfold]
    simp [Vector3Int.add_def, Vector3Int.DOWN]
  · intro v
    rw [player_position_step_unfold]
    simp [Vector3Int.add_def, Vector3Int.LEFT]
  · exact hsingle
  · intro v n
    induction n with
    | zero => simp
    | succ n ih =>
      rw [Function.iterate_succ_apply', ih, hsingle, Vector3Int.add_def]
      simp [Vector3Int.RIGHT, Vector3Int.mk.injEq]
      ring
